import Mathlib

/-!
Verification of the aggregation & projection engine of the Honduras 2025
election dashboard (src/app.py).

The engine is shallowly embedded:
* JSON numbers that Python handles as ints (vote counts) become integers;
  numbers handled as floats (completeness percentages, projections,
  accumulated projected totals) become exact rationals.
* Python dicts (which iterate in insertion order) become association
  lists of key/value pairs, in insertion order.
* A field that may be absent (read through dict.get with a default)
  becomes an Option, read through Option.getD with the same default.
* The stable Python list.sort / sorted is modelled by List.insertionSort,
  which is also stable.
* Python round (round half to even on finite values) becomes
  roundHalfEven on rationals.
-/

namespace Elections

/-- One candidates entry of a region: name and vote count. -/
structure Candidate where
  name : String
  votes : ℤ
deriving DecidableEq, Repr

/-- One municipality record: actas_percentage (absent field modelled as
none, read with default 0) and the candidates list. -/
structure Municipality where
  actas_percentage : Option ℚ
  candidates : List Candidate
deriving DecidableEq, Repr

/-- One department record: actas_percentage, candidates, and the
municipios dict (modelled as an insertion-ordered association list). -/
structure Department where
  actas_percentage : Option ℚ
  candidates : List Candidate
  municipios : List (String × Municipality)
deriving DecidableEq, Repr

/-- The departments mapping of the cached snapshot, in dict insertion
order.  The reserved keys raw_data and Nacional may appear here like any
other key; the engine skips them by name. -/
abbrev Snapshot := List (String × Department)

/-- The calculation_mode string passed to generate_projection_summary. -/
inductive Mode
  | DEPARTAMENTOS
  | MUNICIPIOS
deriving DecidableEq, Repr

/-- Reserved top-level keys skipped by every aggregation loop
(app.py lines 79, 214, 234, 282, 301). -/
def reservedKey (n : String) : Bool :=
  n == "raw_data" || n == "Nacional"

/-- Administrative pseudo-candidate names excluded from aggregation
(app.py lines 90, 115, 218, 286). -/
def isPseudo (n : String) : Bool :=
  n == "Información General" || n == "Información Acta"

/-- calculate_projection (app.py lines 60-64): votes unchanged when the
actas percentage is non-positive, otherwise votes * 100 / pct. -/
def calculate_projection (current_votes actas_percentage : ℚ) : ℚ :=
  if actas_percentage ≤ 0 then current_votes
  else current_votes * 100 / actas_percentage

/-- Round half to even, the behaviour of Python round on finite floats,
here on exact rationals. -/
def roundHalfEven (q : ℚ) : ℤ :=
  if q - ⌊q⌋ < 1 / 2 then ⌊q⌋
  else if 1 / 2 < q - ⌊q⌋ then ⌊q⌋ + 1
  else if ⌊q⌋ % 2 = 0 then ⌊q⌋ else ⌊q⌋ + 1

/-- The global_totals dict of generate_projection_summary: candidate
name to (current, projected) running totals, in insertion order of first
appearance. -/
abbrev Totals := List (String × ℤ × ℚ)

/-- Add one (votes, projection) contribution for a candidate name to the
totals dict, appending a new entry at the end if the name is new
(app.py lines 93-99). -/
def addCand (t : Totals) (name : String) (v : ℤ) (p : ℚ) : Totals :=
  match t with
  | [] => [(name, v, p)]
  | (n, c, pr) :: rest =>
      if n = name then (n, c + v, pr + p) :: rest
      else (n, c, pr) :: addCand rest name v p

/-- Accumulate one leaf region's candidates into the totals, skipping
pseudo-candidate rows (app.py lines 86-99 and 111-124). -/
def accumCands (t : Totals) (actas : ℚ) (cands : List Candidate) : Totals :=
  cands.foldl
    (fun t c =>
      if isPseudo c.name then t
      else addCand t c.name c.votes (calculate_projection c.votes actas))
    t

/-- Accumulate one top-level department under the chosen mode: its own
candidates for DEPARTAMENTOS, each municipio's candidates for
MUNICIPIOS (app.py lines 82-124). -/
def accumDept (t : Totals) (mode : Mode) (d : Department) : Totals :=
  match mode with
  | .DEPARTAMENTOS => accumCands t (d.actas_percentage.getD 0) d.candidates
  | .MUNICIPIOS =>
      d.municipios.foldl
        (fun t m => accumCands t (m.2.actas_percentage.getD 0) m.2.candidates) t

/-- The filled global_totals dict after the department loop of
generate_projection_summary (app.py lines 74-124). -/
def globalTotals (snap : Snapshot) (mode : Mode) : Totals :=
  snap.foldl (fun t e => if reservedKey e.1 then t else accumDept t mode e.2) []

/-- One entry of the results list of generate_projection_summary. -/
structure SummaryEntry where
  candidate : String
  current_votes : ℤ
  projected_votes : ℚ
  percentage : ℚ
deriving DecidableEq, Repr

/-- The unsorted results list of generate_projection_summary
(app.py lines 126-138), with the percentage computed against the grand
projected total. -/
def summaryResults (snap : Snapshot) (mode : Mode) : List SummaryEntry :=
  let t := globalTotals snap mode
  let grand := (t.map (fun e => e.2.2)).sum
  t.map (fun e =>
    ⟨e.1, e.2.1, e.2.2, if 0 < grand then e.2.2 / grand * 100 else 0⟩)

/-- The ordering used by results.sort(key=projected, reverse=True): a
stable sort that places a before b when the projected total of b does
not exceed that of a. -/
def projDesc (a b : SummaryEntry) : Prop :=
  b.projected_votes ≤ a.projected_votes

instance : DecidableRel projDesc :=
  fun a b => inferInstanceAs (Decidable (b.projected_votes ≤ a.projected_votes))

instance : IsTotal SummaryEntry projDesc :=
  ⟨fun a b => (le_total b.projected_votes a.projected_votes).imp id id⟩

instance : IsTrans SummaryEntry projDesc :=
  ⟨fun _ _ _ h1 h2 => le_trans h2 h1⟩

/-- generate_projection_summary (app.py lines 66-142): accumulate, rank
by projected votes descending (stable), keep the top 3. -/
def generate_projection_summary (snap : Snapshot) (mode : Mode) : List SummaryEntry :=
  ((summaryResults snap mode).insertionSort projDesc).take 3

/-- Sum of the votes of every candidates entry of a region, with no
pseudo-row filtering (app.py line 197). -/
def totalVotesAll (cands : List Candidate) : ℤ :=
  (cands.map (fun c => c.votes)).sum

/-- Loop body of check_data_quality (app.py lines 192-201): skip the
reserved keys and the overseas bucket, append the region name when its
unfiltered vote total is zero. -/
def qualityStep (acc : List String) (e : String × Department) : List String :=
  if e.1 = "raw_data" ∨ e.1 = "Nacional" ∨ e.1 = "VOTO EN EL EXTERIOR" then acc
  else if totalVotesAll e.2.candidates = 0 then acc ++ [e.1]
  else acc

/-- check_data_quality (app.py lines 185-202): names of top-level
regions, other than raw_data, Nacional and VOTO EN EL EXTERIOR, whose
candidates' votes sum to exactly zero. -/
def check_data_quality (snap : Snapshot) : List String :=
  snap.foldl qualityStep []

/-- Candidates list with the administrative pseudo-rows removed
(app.py lines 218, 286). -/
def filteredCands (cands : List Candidate) : List Candidate :=
  cands.filter (fun c => !isPseudo c.name)

/-- The ordering used by sorted(candidates, key=votes, reverse=True): a
stable sort that places a before b when the votes of b do not exceed the
votes of a. -/
def votesDesc (a b : Candidate) : Prop :=
  b.votes ≤ a.votes

instance : DecidableRel votesDesc :=
  fun a b => inferInstanceAs (Decidable (b.votes ≤ a.votes))

instance : IsTotal Candidate votesDesc :=
  ⟨fun a b => (le_total b.votes a.votes).imp id id⟩

instance : IsTrans Candidate votesDesc :=
  ⟨fun _ _ _ h1 h2 => le_trans h2 h1⟩

/-- Top-candidate selection shared verbatim by process_department_data
(app.py lines 211-224) and process_municipality_data (lines 279-291):
scan the departments dict in its own iteration order, skip the reserved
keys, and on the first department whose filtered candidates list is
non-empty with a positive vote total, return the names of its (up to) 3
highest-vote candidates. -/
def get_top_candidates : Snapshot → List String
  | [] => []
  | e :: rest =>
      if reservedKey e.1 then get_top_candidates rest
      else
        if filteredCands e.2.candidates ≠ [] ∧
            0 < totalVotesAll (filteredCands e.2.candidates) then
          (((filteredCands e.2.candidates).insertionSort votesDesc).take 3).map
            (fun c => c.name)
        else get_top_candidates rest

/-- The cand_votes dict comprehension (app.py lines 240, 313): for a
duplicated name the last entry wins; a missing name reads as 0. -/
def lookupVotes (cands : List Candidate) (name : String) : ℤ :=
  (cands.foldl (fun acc c => if c.name = name then some c.votes else acc) none).getD 0

/-- Dict lookup departments[dept_name]; total on the model, with an
all-empty department as the (unreachable for real dicts) default. -/
def lookupDept (snap : Snapshot) (n : String) : Department :=
  ((snap.find? (fun e => e.1 == n)).map (fun e => e.2)).getD ⟨none, [], []⟩

/-- Python string comparison a less-or-equal b, i.e. not (b less than
a), with less-than the lexicographic order on code points. -/
def strLe (a b : String) : Prop := ¬ (b.data < a.data)

instance : DecidableRel strLe :=
  fun a b => inferInstanceAs (Decidable (¬ (b.data < a.data)))

/-- sorted(departments.keys()): the key list in ascending string order,
via the stable insertion sort. -/
def sortedKeys (snap : Snapshot) : List String :=
  (snap.map (fun e => e.1)).insertionSort strLe

/-- One (Actual, Proyectado) cell of a table row (app.py lines 244-256,
321-333): with positive actas the projection is rounded half to even,
otherwise the raw vote count is shown. -/
def tableCell (actas : ℚ) (votes : ℤ) : ℤ × ℤ :=
  if 0 < actas then (votes, roundHalfEven (calculate_projection votes actas))
  else (votes, votes)

/-- One data row of the department table. -/
structure DeptRow where
  departamento : String
  actas : ℚ
  cells : List (String × ℤ × ℤ)
deriving DecidableEq, Repr

/-- The TOTAL row of either table: per selected candidate, the summed
current votes and the rounded summed raw projection. -/
structure TotalRow where
  cells : List (String × ℤ × ℤ)
deriving DecidableEq, Repr

/-- The department-table row for one department (app.py lines 237-260). -/
def deptRowFor (tops : List String) (n : String) (d : Department) : DeptRow :=
  let actas := d.actas_percentage.getD 0
  ⟨n, actas, tops.map (fun c => (c, tableCell actas (lookupVotes d.candidates c)))⟩

/-- The running totals of process_department_data for one selected
candidate: current votes summed as integers, projections summed
unrounded (app.py lines 247-258); calculate_projection returns the raw
votes on non-positive actas, matching the else branch at line 253. -/
def deptTotalsFor (snap : Snapshot) (c : String) : ℤ × ℚ :=
  (sortedKeys snap).foldl
    (fun acc n =>
      if reservedKey n then acc
      else
        let d := lookupDept snap n
        let v := lookupVotes d.candidates c
        (acc.1 + v, acc.2 + calculate_projection v (d.actas_percentage.getD 0)))
    (0, 0)

/-- process_department_data (app.py lines 204-270): selected candidates
from the first department with votes, one row per non-reserved
department in sorted key order, and a TOTAL row whose projected figures
round the unrounded sums. -/
def process_department_data (snap : Snapshot) : Option (List DeptRow × TotalRow) :=
  let tops := get_top_candidates snap
  if tops = [] then none
  else
    some
      ((sortedKeys snap).foldl
        (fun acc n =>
          if reservedKey n then acc
          else acc ++ [deptRowFor tops n (lookupDept snap n)]) [],
       ⟨tops.map (fun c =>
          let t := deptTotalsFor snap c
          (c, t.1, roundHalfEven t.2))⟩)

/-- One data row of the municipality table. -/
structure MunRow where
  departamento : String
  municipio : String
  actas : ℚ
  cells : List (String × ℤ × ℤ)
deriving DecidableEq, Repr

/-- The municipality-table row for one municipality (app.py lines
310-333). -/
def munRowFor (tops : List String) (dn mn : String) (m : Municipality) : MunRow :=
  let actas := m.actas_percentage.getD 0
  ⟨dn, mn, actas, tops.map (fun c => (c, tableCell actas (lookupVotes m.candidates c)))⟩

/-- The running totals of process_municipality_data for one selected
candidate, accumulated over every municipio of every non-reserved
department (app.py lines 321-335). -/
def munTotalsFor (snap : Snapshot) (c : String) : ℤ × ℚ :=
  (sortedKeys snap).foldl
    (fun acc n =>
      if reservedKey n then acc
      else
        (lookupDept snap n).municipios.foldl
          (fun acc m =>
            let v := lookupVotes m.2.candidates c
            (acc.1 + v, acc.2 + calculate_projection v (m.2.actas_percentage.getD 0)))
          acc)
    (0, 0)

/-- process_municipality_data (app.py lines 272-350).  The append of the
row variable at line 337 sits in the department loop, after the
municipality loop, so per department with a non-empty municipios dict
only the row of the last-iterated municipality is appended, while the
totals accumulate over every municipality. -/
def process_municipality_data (snap : Snapshot) : Option (List MunRow × TotalRow) :=
  let tops := get_top_candidates snap
  if tops = [] then none
  else
    let rows :=
      (sortedKeys snap).foldl
        (fun acc n =>
          if reservedKey n then acc
          else
            match (lookupDept snap n).municipios.getLast? with
            | none => acc
            | some m => acc ++ [munRowFor tops n m.1 m.2])
        []
    if rows = [] then none
    else
      some
        (rows,
         ⟨tops.map (fun c =>
            let t := munTotalsFor snap c
            (c, t.1, roundHalfEven t.2))⟩)

/-! ### Projector -/

/-- C1: calculate_projection returns the votes unchanged on non-positive
completeness, extrapolates by votes * 100 / pct on positive
completeness, and satisfies the projection identity at 100 percent.  The
Lean embedding is a total function, reflecting that the Python function
performs no raising operation on finite inputs. -/
theorem c1_projector (v c : ℚ) (hv : 0 ≤ v) :
    (c ≤ 0 → calculate_projection v c = v) ∧
    (0 < c → calculate_projection v c = v * 100 / c) ∧
    calculate_projection v 100 = v := by
  refine ⟨fun h => if_pos h, fun h => if_neg (not_le.mpr h), ?_⟩
  rw [calculate_projection, if_neg (by norm_num)]
  norm_num

/-- Witness for C1 at v = 7: the identity projection at 100 percent. -/
theorem c1_projector_witness : calculate_projection 7 100 = 7 :=
  (c1_projector 7 100 (by norm_num)).2.2

/-! ### DataQualityChecker -/

/-- One quality step extends the accumulator on the right. -/
theorem qualityStep_acc (acc : List String) (e : String × Department) :
    qualityStep acc e = acc ++ qualityStep [] e := by
  unfold qualityStep
  split_ifs <;> simp

/-- The quality loop only ever appends to its accumulator. -/
theorem check_data_quality_acc (l : Snapshot) (acc : List String) :
    l.foldl qualityStep acc = acc ++ check_data_quality l := by
  unfold check_data_quality
  induction l generalizing acc with
  | nil => simp
  | cons e l ih =>
      simp only [List.foldl_cons]
      calc l.foldl qualityStep (qualityStep acc e)
          = qualityStep acc e ++ l.foldl qualityStep [] := ih _
        _ = acc ++ (qualityStep [] e ++ l.foldl qualityStep []) := by
            rw [qualityStep_acc] ; rw [List.append_assoc]
        _ = acc ++ l.foldl qualityStep (qualityStep [] e) := by
            rw [ih (qualityStep [] e)]

/-- C9: check_data_quality reports exactly the top-level region names,
other than raw_data, Nacional and VOTO EN EL EXTERIOR, whose candidates'
votes, summed before any pseudo-row filtering, are exactly zero. -/
theorem c9_quality_regions (snap : Snapshot) (n : String) :
    n ∈ check_data_quality snap ↔
      (n ≠ "raw_data" ∧ n ≠ "Nacional" ∧ n ≠ "VOTO EN EL EXTERIOR") ∧
        ∃ d, (n, d) ∈ snap ∧ totalVotesAll d.candidates = 0 := by
  induction snap with
  | nil => simp [check_data_quality]
  | cons e l ih =>
      have h : check_data_quality (e :: l) = qualityStep [] e ++ check_data_quality l := by
        rw [check_data_quality, List.foldl_cons, check_data_quality_acc]
      rw [h]
      obtain ⟨en, ed⟩ := e
      constructor
      · intro hm
        rcases List.mem_append.mp hm with hm | hm
        · rw [qualityStep] at hm
          split_ifs at hm with h1 h2
          · simp at hm
          · simp only [List.nil_append, List.mem_singleton] at hm
            subst hm
            push_neg at h1
            exact ⟨⟨h1.1, h1.2.1, h1.2.2⟩, ed, List.mem_cons_self _ _, h2⟩
          · simp at hm
        · obtain ⟨hx, d, hd, hz⟩ := ih.mp hm
          exact ⟨hx, d, List.mem_cons_of_mem _ hd, hz⟩
      · rintro ⟨hx, d, hd, hz⟩
        rcases List.mem_cons.mp hd with hd | hd
        · obtain ⟨h1, h2⟩ := Prod.ext_iff.mp hd
          simp only at h1 h2
          subst h1
          refine List.mem_append.mpr (Or.inl ?_)
          rw [qualityStep, if_neg (by simpa using hx), if_pos (h2 ▸ hz)]
          simp
        · exact List.mem_append.mpr (Or.inr (ih.mpr ⟨hx, d, hd, hz⟩))

/-! ### Aggregator: totals as sums over leaf regions -/

/-- Read a candidate's (current, projected) running totals from the
global_totals dict, 0 for an absent name. -/
def lookupTotals (t : Totals) (k : String) : ℤ × ℚ :=
  match t with
  | [] => (0, 0)
  | (n, c, p) :: rest => if n = k then (c, p) else lookupTotals rest k

/-- Raw votes a single leaf region's candidates list contributes to the
current total of candidate name k. -/
def candContribCurrent (k : String) (cands : List Candidate) : ℤ :=
  ((cands.filter (fun c => c.name == k)).map (fun c => c.votes)).sum

/-- Projection a single leaf region's candidates list contributes to the
projected total of candidate name k. -/
def candContribProjected (k : String) (actas : ℚ) (cands : List Candidate) : ℚ :=
  ((cands.filter (fun c => c.name == k)).map
    (fun c => calculate_projection c.votes actas)).sum

/-- Leaf regions of one department under the chosen granularity: the
department itself, or its municipios. -/
def deptLeaves (mode : Mode) (d : Department) : List (ℚ × List Candidate) :=
  match mode with
  | .DEPARTAMENTOS => [(d.actas_percentage.getD 0, d.candidates)]
  | .MUNICIPIOS => d.municipios.map (fun m => (m.2.actas_percentage.getD 0, m.2.candidates))

/-- All leaf regions the summary iterates over: those of every
non-reserved top-level entry, in iteration order. -/
def leafList (snap : Snapshot) (mode : Mode) : List (ℚ × List Candidate) :=
  ((snap.filter (fun e => !reservedKey e.1)).map (fun e => deptLeaves mode e.2)).flatten

theorem lookupTotals_addCand (t : Totals) (n k : String) (v : ℤ) (p : ℚ) :
    lookupTotals (addCand t n v p) k =
      if n = k then ((lookupTotals t k).1 + v, (lookupTotals t k).2 + p)
      else lookupTotals t k := by
  induction t with
  | nil =>
      simp only [addCand, lookupTotals]
      split_ifs <;> simp
  | cons hd rest ih =>
      obtain ⟨n1, c1, p1⟩ := hd
      by_cases h1 : n1 = n
      · subst h1
        by_cases h2 : n1 = k <;> simp [addCand, lookupTotals, h2]
      · by_cases h2 : n1 = k
        · subst h2
          simp [addCand, lookupTotals, h1, Ne.symm h1]
        · simp [addCand, lookupTotals, h1, h2, ih]

theorem lookupTotals_accumCands (cands : List Candidate) (t : Totals) (actas : ℚ)
    (k : String) (hk : isPseudo k = false) :
    lookupTotals (accumCands t actas cands) k =
      ((lookupTotals t k).1 + candContribCurrent k cands,
       (lookupTotals t k).2 + candContribProjected k actas cands) := by
  induction cands generalizing t with
  | nil => simp [accumCands, candContribCurrent, candContribProjected]
  | cons c cs ih =>
      simp only [accumCands, List.foldl_cons] at ih ⊢
      by_cases hp : isPseudo c.name
      · have hck : (c.name == k) = false :=
          beq_eq_false_iff_ne.mpr (fun he => absurd (he ▸ hp) (by simp [hk]))
        rw [if_pos hp, ih t]
        simp [candContribCurrent, candContribProjected, List.filter_cons, hck]
      · rw [if_neg hp, ih]
        rw [lookupTotals_addCand]
        by_cases hck : c.name = k
        · rw [if_pos hck]
          simp only [candContribCurrent, candContribProjected, List.filter_cons,
            beq_iff_eq, if_pos hck, List.map_cons, List.sum_cons, Prod.mk.injEq, hck,
            if_true, ite_true]
          constructor <;> ring
        · rw [if_neg hck]
          simp [candContribCurrent, candContribProjected, List.filter_cons, hck]

theorem lookupTotals_accumDept (d : Department) (mode : Mode) (t : Totals)
    (k : String) (hk : isPseudo k = false) :
    lookupTotals (accumDept t mode d) k =
      ((lookupTotals t k).1 +
        ((deptLeaves mode d).map (fun l => candContribCurrent k l.2)).sum,
       (lookupTotals t k).2 +
        ((deptLeaves mode d).map (fun l => candContribProjected k l.1 l.2)).sum) := by
  cases mode with
  | DEPARTAMENTOS =>
      simp [accumDept, deptLeaves, lookupTotals_accumCands _ _ _ _ hk]
  | MUNICIPIOS =>
      simp only [accumDept, deptLeaves]
      induction d.municipios generalizing t with
      | nil => simp
      | cons m ms ih =>
          simp only [List.foldl_cons, List.map_cons, List.sum_cons]
          rw [ih, lookupTotals_accumCands _ _ _ _ hk]
          simp only [Prod.mk.injEq]
          constructor <;> ring

theorem lookupTotals_globalTotals_fold (l : Snapshot) (mode : Mode) (t : Totals)
    (k : String) (hk : isPseudo k = false) :
    lookupTotals
        (l.foldl (fun t e => if reservedKey e.1 then t else accumDept t mode e.2) t) k =
      ((lookupTotals t k).1 + ((leafList l mode).map (fun l => candContribCurrent k l.2)).sum,
       (lookupTotals t k).2 +
        ((leafList l mode).map (fun l => candContribProjected k l.1 l.2)).sum) := by
  induction l generalizing t with
  | nil => simp [leafList]
  | cons e l ih =>
      simp only [List.foldl_cons]
      by_cases hr : reservedKey e.1
      · rw [if_pos hr, ih]
        simp [leafList, List.filter_cons, hr]
      · rw [if_neg hr, ih, lookupTotals_accumDept _ _ _ _ hk]
        simp only [leafList, List.filter_cons, hr, Bool.not_false, if_pos,
          List.map_cons, List.flatten_cons, List.map_append, List.sum_append,
          Prod.mk.injEq]
        constructor <;> ring

/-- The totals a name reads back from global_totals are the sums of its
per-leaf contributions. -/
theorem lookupTotals_globalTotals (snap : Snapshot) (mode : Mode) (k : String)
    (hk : isPseudo k = false) :
    lookupTotals (globalTotals snap mode) k =
      (((leafList snap mode).map (fun l => candContribCurrent k l.2)).sum,
       ((leafList snap mode).map (fun l => candContribProjected k l.1 l.2)).sum) := by
  rw [globalTotals, lookupTotals_globalTotals_fold _ _ _ _ hk]
  simp [lookupTotals]

/-- C2: for every snapshot, granularity and non-pseudo candidate name,
the summary's accumulated current total is the sum of that name's raw
votes over all included leaf regions, and its projected total is the sum
of the per-region projections over the same regions. -/
theorem c2_aggregation (snap : Snapshot) (mode : Mode) (k : String)
    (hk : isPseudo k = false) :
    lookupTotals (globalTotals snap mode) k =
      (((leafList snap mode).map (fun l => candContribCurrent k l.2)).sum,
       ((leafList snap mode).map (fun l => candContribProjected k l.1 l.2)).sum) :=
  lookupTotals_globalTotals snap mode k hk

/-- Spec scenario snapshot: department A with X at 100 votes, 50
percent; department B with X at 100 votes, 100 percent. -/
def snapScenario : Snapshot :=
  [("A", ⟨some 50, [⟨"X", 100⟩], []⟩),
   ("B", ⟨some 100, [⟨"X", 100⟩], []⟩)]

/-- Witness for C2: on the spec scenario, candidate X accumulates
current 200 and projected 200 + 100 = 300. -/
theorem c2_aggregation_witness :
    lookupTotals (globalTotals snapScenario Mode.DEPARTAMENTOS) "X" = (200, 300) := by
  rw [c2_aggregation snapScenario Mode.DEPARTAMENTOS "X" (by rfl)]
  simp only [snapScenario, leafList, deptLeaves, reservedKey, candContribCurrent,
    candContribProjected, calculate_projection, List.filter_cons, List.filter_nil,
    List.map_cons, List.map_nil, List.flatten, List.sum_cons, List.sum_nil,
    String.reduceBEq, String.reduceEq, Bool.not_false, Bool.not_true,
    Option.getD_some, Prod.mk.injEq]
  norm_num

/-! ### Ranking of the summary -/

/-- Inserting an entry keeps the sublist of any fixed projected value
intact, with the new entry in front when it has that value. -/
theorem filter_proj_orderedInsert (a : SummaryEntry) (l : List SummaryEntry) (k : ℚ) :
    (l.orderedInsert projDesc a).filter (fun x => x.projected_votes == k) =
      if a.projected_votes = k
        then a :: l.filter (fun x => x.projected_votes == k)
        else l.filter (fun x => x.projected_votes == k) := by
  induction l with
  | nil =>
      simp only [List.orderedInsert, List.filter_cons, List.filter_nil, beq_iff_eq]
      try (split_ifs <;> simp_all)
  | cons b bs ih =>
      rw [List.orderedInsert]
      by_cases hab : projDesc a b
      · rw [if_pos hab]
        simp only [List.filter_cons, beq_iff_eq]
        try (split_ifs <;> simp_all)
      · rw [if_neg hab]
        have hlt : a.projected_votes < b.projected_votes := not_le.mp hab
        by_cases hak : a.projected_votes = k
        · have hbk : ¬ b.projected_votes = k := fun h => absurd (hak ▸ h ▸ hlt) (lt_irrefl _)
          rw [if_pos hak]
          simp only [List.filter_cons, beq_iff_eq, if_neg hbk, ih, if_pos hak]
        · rw [if_neg hak]
          simp only [List.filter_cons, beq_iff_eq, ih, if_neg hak]

/-- Stability of results.sort for the projected-votes key: entries with
any fixed projected value keep their pre-sort relative order. -/
theorem filter_proj_insertionSort (l : List SummaryEntry) (k : ℚ) :
    (l.insertionSort projDesc).filter (fun x => x.projected_votes == k) =
      l.filter (fun x => x.projected_votes == k) := by
  induction l with
  | nil => rfl
  | cons a l ih =>
      rw [List.insertionSort, filter_proj_orderedInsert, List.filter_cons]
      by_cases hak : a.projected_votes = k
      · rw [if_pos hak, ih]
        simp [hak]
      · rw [if_neg hak, ih]
        simp [hak]

/-- C3 counterexample snapshot: one department at 100 percent whose
candidates B and A tie at 5 votes, B listed first. -/
def snapC3 : Snapshot :=
  [("D1", ⟨some 100, [⟨"B", 5⟩, ⟨"A", 5⟩], []⟩)]

/-- C3 counterexample: on snapC3 the two candidates tie on projected
votes, and the summary lists B before A — the first-accumulated order,
not the candidate-name-ascending order the claim requires. -/
theorem c3_counterexample :
    (generate_projection_summary snapC3 Mode.DEPARTAMENTOS).map (fun e => e.candidate) =
      ["B", "A"] ∧
    (generate_projection_summary snapC3 Mode.DEPARTAMENTOS).map
        (fun e => e.projected_votes) = [5, 5] ∧
    ¬ (["B", "A"] : List String) = ["A", "B"] := by
  refine ⟨?_, ?_, by decide⟩ <;>
  · simp only [generate_projection_summary, summaryResults, globalTotals, snapC3,
      reservedKey, accumDept, accumCands, addCand, isPseudo, calculate_projection,
      List.insertionSort, List.orderedInsert, projDesc, List.foldl, List.map,
      String.reduceEq, String.reduceBEq]
    norm_num [List.take]

/-- C3 amended: the summary is sorted by projected votes descending, has
min 3 n entries for n ranked candidates, lists tied candidates in
first-accumulated order (its sublist at any fixed projected value is an
initial segment of the unsorted results' sublist), and omits no
candidate whose projected total exceeds that of an included one. -/
theorem c3_ranking (snap : Snapshot) (mode : Mode) :
    List.Pairwise projDesc (generate_projection_summary snap mode) ∧
    (generate_projection_summary snap mode).length = min 3 (summaryResults snap mode).length ∧
    (∀ k : ℚ, ∃ rest,
      (summaryResults snap mode).filter (fun x => x.projected_votes == k) =
        (generate_projection_summary snap mode).filter (fun x => x.projected_votes == k)
          ++ rest) ∧
    (∀ b ∈ summaryResults snap mode,
      b.candidate ∉ (generate_projection_summary snap mode).map (fun e => e.candidate) →
      ∀ a ∈ generate_projection_summary snap mode,
        b.projected_votes ≤ a.projected_votes) := by
  have hsorted : List.Pairwise projDesc ((summaryResults snap mode).insertionSort projDesc) :=
    List.sorted_insertionSort projDesc (summaryResults snap mode)
  have hsplit :
      (summaryResults snap mode).insertionSort projDesc =
        ((summaryResults snap mode).insertionSort projDesc).take 3 ++
          ((summaryResults snap mode).insertionSort projDesc).drop 3 :=
    (List.take_append_drop 3 _).symm
  refine ⟨?_, ?_, ?_, ?_⟩
  · exact hsorted.sublist (List.take_sublist 3 _)
  · rw [generate_projection_summary, List.length_take,
      List.length_insertionSort, Nat.min_comm]
  · intro k
    refine ⟨(((summaryResults snap mode).insertionSort projDesc).drop 3).filter
      (fun x => x.projected_votes == k), ?_⟩
    rw [← filter_proj_insertionSort (summaryResults snap mode) k]
    conv_lhs => rw [hsplit]
    rw [List.filter_append]
    rfl
  · intro b hb hnot a ha
    have hbs : b ∈ (summaryResults snap mode).insertionSort projDesc := by
      rw [List.mem_insertionSort]
      exact hb
    have hbdrop : b ∈ ((summaryResults snap mode).insertionSort projDesc).drop 3 := by
      rw [hsplit] at hbs
      rcases List.mem_append.mp hbs with h | h
      · exact absurd (List.mem_map_of_mem (fun e => e.candidate) h) hnot
      · exact h
    have := (List.pairwise_append.mp (hsplit ▸ hsorted)).2.2
    exact this a ha b hbdrop

/-- Snapshot with five candidates with distinct projected totals. -/
def snapFive : Snapshot :=
  [("D1", ⟨some 100,
    [⟨"E5", 10⟩, ⟨"E1", 50⟩, ⟨"E3", 30⟩, ⟨"E2", 40⟩, ⟨"E4", 20⟩], []⟩)]

/-- Witness for C3 amended: with five distinctly ranked candidates the
summary has exactly the 3 highest in descending order, and the general
theorem instantiates on snapFive. -/
theorem c3_ranking_witness :
    List.Pairwise projDesc (generate_projection_summary snapFive Mode.DEPARTAMENTOS) ∧
    (generate_projection_summary snapFive Mode.DEPARTAMENTOS).map (fun e => e.candidate) =
      ["E1", "E2", "E3"] := by
  constructor
  · exact (c3_ranking snapFive Mode.DEPARTAMENTOS).1
  · simp only [generate_projection_summary, summaryResults, globalTotals, snapFive,
      reservedKey, accumDept, accumCands, addCand, isPseudo, calculate_projection,
      List.insertionSort, List.orderedInsert, projDesc, List.foldl, List.map,
      String.reduceEq, String.reduceBEq]
    norm_num [List.take]

/-! ### TableBuilder: failing inputs for the municipality row loop -/

/-- Failing input for C4: one department D with two municipalities M1
and M2, each reporting X at 100 votes with 100 percent of actas. -/
def snapC4 : Snapshot :=
  [("D", ⟨some 100, [⟨"X", 200⟩],
     [("M1", ⟨some 100, [⟨"X", 100⟩]⟩), ("M2", ⟨some 100, [⟨"X", 100⟩]⟩)]⟩)]

/-- C4 failing evaluation: on snapC4 the municipality table has a single
row (for M2) whose current count for X is 100, while the grand-total row
records 200 — the total is the sum over every municipality, not the sum
of the row-level current counts as the claim states, because the row
loop appends only the last municipality of each department. -/
theorem c4_total_vs_rows :
    process_municipality_data snapC4 =
      some ([⟨"D", "M2", 100, [("X", 100, 100)]⟩], ⟨[("X", 200, 200)]⟩) ∧
    ¬ (200 : ℤ) = 100 := by
  refine ⟨?_, by decide⟩
  simp only [process_municipality_data, snapC4, get_top_candidates, filteredCands, isPseudo,
    totalVotesAll, sortedKeys, strLe, List.insertionSort, List.orderedInsert, reservedKey,
    lookupDept, lookupVotes, munRowFor, munTotalsFor, tableCell, calculate_projection,
    roundHalfEven, votesDesc, String.reduceEq, String.reduceBEq, List.map, List.filter,
    List.foldl, List.find?, List.getLast?, List.sum]
  norm_num

/-- Failing input for C5: one department D with two municipalities M1
(60 votes of X at 50 percent) and M2 (40 votes of X at 80 percent). -/
def snapC5 : Snapshot :=
  [("D", ⟨some 60, [⟨"X", 100⟩],
     [("M1", ⟨some 50, [⟨"X", 60⟩]⟩), ("M2", ⟨some 80, [⟨"X", 40⟩]⟩)]⟩)]

/-- C5 failing evaluation: on snapC5, whose department D has two
municipalities, the municipality table contains one single row — the one
of M2, the last municipality iterated — instead of one row per
municipality, because the append at app.py line 337 sits in the
department loop. -/
theorem c5_missing_rows :
    (process_municipality_data snapC5).map
        (fun p => (p.1.length, p.1.map (fun r => r.municipio))) = some (1, ["M2"]) ∧
    ¬ (1 : ℕ) = 2 := by
  refine ⟨?_, by decide⟩
  simp only [process_municipality_data, snapC5, get_top_candidates, filteredCands, isPseudo,
    totalVotesAll, sortedKeys, strLe, List.insertionSort, List.orderedInsert, reservedKey,
    lookupDept, lookupVotes, munRowFor, munTotalsFor, tableCell, calculate_projection,
    roundHalfEven, votesDesc, String.reduceEq, String.reduceBEq, List.map, List.filter,
    List.foldl, List.find?, List.getLast?, List.sum]
  norm_num

/-! ### TableBuilder: top-candidate selection -/

/-- Counterexample input for C6: department Z (with candidate ZC)
inserted before department A (with the higher-vote candidate AC), so
snapshot iteration order and sorted-name order disagree. -/
def snapC6 : Snapshot :=
  [("Z", ⟨some 100, [⟨"ZC", 5⟩], []⟩),
   ("A", ⟨some 100, [⟨"AC", 7⟩], []⟩)]

/-- C6 counterexample: on snapC6 the selection takes the candidates of
department Z, the first in the snapshot's own (insertion) order, not
those of department A, the first in sorted-region-name order as the
claim requires. -/
theorem c6_counterexample :
    get_top_candidates snapC6 = ["ZC"] ∧
    (process_department_data snapC6).map (fun p => p.2.cells.map (fun c => c.1)) =
      some ["ZC"] ∧
    ¬ (["ZC"] : List String) = ["AC"] := by
  refine ⟨?_, ?_, by decide⟩ <;>
  · simp only [process_department_data, snapC6, get_top_candidates, filteredCands, isPseudo,
      totalVotesAll, sortedKeys, strLe, List.insertionSort, List.orderedInsert, reservedKey,
      lookupDept, lookupVotes, deptRowFor, deptTotalsFor, tableCell, calculate_projection,
      roundHalfEven, votesDesc, String.reduceEq, String.reduceBEq, List.map, List.filter,
      List.foldl, List.find?, List.sum]
    norm_num

/-- A top-level entry at which the selection scan stops: not reserved,
non-empty filtered candidates, positive filtered vote total. -/
def usableRegion (e : String × Department) : Prop :=
  reservedKey e.1 = false ∧ filteredCands e.2.candidates ≠ [] ∧
    0 < totalVotesAll (filteredCands e.2.candidates)

instance : DecidablePred usableRegion :=
  fun e =>
    inferInstanceAs
      (Decidable (reservedKey e.1 = false ∧ filteredCands e.2.candidates ≠ [] ∧
        0 < totalVotesAll (filteredCands e.2.candidates)))

/-- Selection on a snapshot with no usable region comes up empty. -/
theorem get_top_of_find_none (snap : Snapshot)
    (h : snap.find? (fun e => decide (usableRegion e)) = none) :
    get_top_candidates snap = [] := by
  induction snap with
  | nil => rfl
  | cons a l ih =>
      rw [List.find?_cons] at h
      rcases hd : decide (usableRegion a) with _ | _
      · rw [hd] at h
        have hu : ¬ usableRegion a := of_decide_eq_false hd
        rw [get_top_candidates]
        by_cases hr : reservedKey a.1
        · rw [if_pos hr]
          exact ih h
        · rw [if_neg hr]
          rw [if_neg (fun hc => hu ⟨Bool.not_eq_true _ ▸ hr, hc⟩)]
          exact ih h
      · rw [hd] at h
        exact absurd h (by simp)

/-- Selection stops at the first usable region, in snapshot iteration
order, and returns the names of its up-to-3 highest-vote candidates. -/
theorem get_top_of_find_some (snap : Snapshot) (e : String × Department)
    (h : snap.find? (fun e => decide (usableRegion e)) = some e) :
    get_top_candidates snap =
      (((filteredCands e.2.candidates).insertionSort votesDesc).take 3).map
        (fun c => c.name) := by
  induction snap with
  | nil => exact absurd h (by simp)
  | cons a l ih =>
      rw [List.find?_cons] at h
      rcases hd : decide (usableRegion a) with _ | _
      · rw [hd] at h
        have hu : ¬ usableRegion a := of_decide_eq_false hd
        rw [get_top_candidates]
        by_cases hr : reservedKey a.1
        · rw [if_pos hr]
          exact ih h
        · rw [if_neg hr]
          rw [if_neg (fun hc => hu ⟨Bool.not_eq_true _ ▸ hr, hc⟩)]
          exact ih h
      · rw [hd] at h
        have hu : usableRegion a := of_decide_eq_true hd
        have he : e = a := (Option.some.injEq .. ▸ h).symm
        subst he
        rw [get_top_candidates, if_neg (by rw [hu.1] ; exact Bool.false_ne_true),
          if_pos ⟨hu.2.1, hu.2.2⟩]

/-- The grand-total columns of a returned department table are exactly
the selected candidate names, in order. -/
theorem deptTable_total_cols (snap : Snapshot) (r : List DeptRow × TotalRow)
    (hr : process_department_data snap = some r) :
    r.2.cells.map (fun c => c.1) = get_top_candidates snap := by
  rw [process_department_data] at hr
  by_cases ht : get_top_candidates snap = []
  · rw [if_pos ht] at hr
    exact absurd hr (by simp)
  · rw [if_neg ht] at hr
    have := (Option.some.injEq .. ▸ hr)
    rw [← this]
    simp [Function.comp_def]

/-- The grand-total columns of a returned municipality table are exactly
the selected candidate names, in order. -/
theorem munTable_total_cols (snap : Snapshot) (r : List MunRow × TotalRow)
    (hr : process_municipality_data snap = some r) :
    r.2.cells.map (fun c => c.1) = get_top_candidates snap := by
  rw [process_municipality_data] at hr
  by_cases ht : get_top_candidates snap = []
  · rw [if_pos ht] at hr
    exact absurd hr (by simp)
  · rw [if_neg ht] at hr
    by_cases hrows : ((sortedKeys snap).foldl
        (fun acc n =>
          if reservedKey n then acc
          else
            match (lookupDept snap n).municipios.getLast? with
            | none => acc
            | some m => acc ++ [munRowFor (get_top_candidates snap) n m.1 m.2])
        []) = []
    · rw [if_pos hrows] at hr
      exact absurd hr (by simp)
    · rw [if_neg hrows] at hr
      have := (Option.some.injEq .. ▸ hr)
      rw [← this]
      simp [Function.comp_def]

/-- C6 amended: the selected candidate names come from the first
top-level region in the snapshot's own iteration (insertion) order whose
filtered candidates are non-empty with a positive vote total — that
region's up-to-3 highest-vote candidates; with no such region both table
builders return no table, and when a table is returned its grand-total
columns are exactly the selected names. -/
theorem c6_selection (snap : Snapshot) :
    (snap.find? (fun e => decide (usableRegion e)) = none →
      get_top_candidates snap = [] ∧ process_department_data snap = none ∧
        process_municipality_data snap = none) ∧
    (∀ e, snap.find? (fun e => decide (usableRegion e)) = some e →
      get_top_candidates snap =
        (((filteredCands e.2.candidates).insertionSort votesDesc).take 3).map
          (fun c => c.name)) ∧
    (∀ r, process_department_data snap = some r →
      r.2.cells.map (fun c => c.1) = get_top_candidates snap) ∧
    (∀ r, process_municipality_data snap = some r →
      r.2.cells.map (fun c => c.1) = get_top_candidates snap) := by
  refine ⟨fun h => ?_, get_top_of_find_some snap,
    deptTable_total_cols snap, munTable_total_cols snap⟩
  have ht := get_top_of_find_none snap h
  refine ⟨ht, ?_, ?_⟩
  · rw [process_department_data, ht]
    rfl
  · rw [process_municipality_data, ht]
    rfl

/-- Witness input for C6: the first region has no candidates, the
second mixes a pseudo-row with two real candidates. -/
def snapC6W : Snapshot :=
  [("Empty", ⟨some 10, [], []⟩),
   ("D", ⟨some 40, [⟨"Información Acta", 500⟩, ⟨"P2", 30⟩, ⟨"P1", 70⟩], []⟩)]

/-- Witness for C6 amended, at the empty snapshot and at snapC6W. -/
theorem c6_selection_witness :
    get_top_candidates ([] : Snapshot) = [] ∧
    get_top_candidates snapC6W = ["P1", "P2"] := by
  constructor
  · exact ((c6_selection []).1 rfl).1
  · rw [(c6_selection snapC6W).2.1
      ("D", ⟨some 40, [⟨"Información Acta", 500⟩, ⟨"P2", 30⟩, ⟨"P1", 70⟩], []⟩)
      (by
        simp only [snapC6W, List.find?_cons]
        rw [show decide (usableRegion ("Empty", ⟨some 10, [], []⟩)) = false by decide]
        rw [show decide (usableRegion
          ("D", ⟨some 40, [⟨"Información Acta", 500⟩, ⟨"P2", 30⟩, ⟨"P1", 70⟩], []⟩)) = true
          by decide])]
    decide

/-! ### Pseudo-candidate exclusion -/

/-- Keys of the totals dict after one addition: unchanged when the name
is present, extended at the end when it is new. -/
theorem keys_addCand (t : Totals) (n : String) (v : ℤ) (p : ℚ) :
    (addCand t n v p).map (fun e => e.1) =
      if n ∈ t.map (fun e => e.1) then t.map (fun e => e.1)
      else t.map (fun e => e.1) ++ [n] := by
  induction t with
  | nil => simp [addCand]
  | cons hd rest ih =>
      obtain ⟨n1, c1, p1⟩ := hd
      by_cases h1 : n1 = n
      · subst h1
        simp [addCand]
      · rw [addCand, if_neg h1]
        by_cases h2 : n ∈ rest.map (fun e => e.1)
        · simp only [List.map_cons, ih, if_pos h2]
          rw [if_pos (List.mem_cons_of_mem _ h2)]
        · simp only [List.map_cons, ih, if_neg h2]
          rw [if_neg (by
            simp only [List.mem_cons]
            rintro (h | h)
            · exact h1 h.symm
            · exact h2 h)]
          simp

/-- Adding a non-pseudo name keeps the totals dict free of pseudo names. -/
theorem pseudo_free_addCand (t : Totals) (n : String) (v : ℤ) (p : ℚ)
    (ht : ∀ k ∈ t.map (fun e => e.1), isPseudo k = false) (hn : isPseudo n = false) :
    ∀ k ∈ (addCand t n v p).map (fun e => e.1), isPseudo k = false := by
  intro k hk
  rw [keys_addCand] at hk
  split_ifs at hk
  · exact ht k hk
  · rcases List.mem_append.mp hk with h | h
    · exact ht k h
    · exact (List.mem_singleton.mp h) ▸ hn

/-- Accumulating a leaf region keeps the totals dict free of pseudo
names. -/
theorem pseudo_free_accumCands (cands : List Candidate) (t : Totals) (actas : ℚ)
    (ht : ∀ k ∈ t.map (fun e => e.1), isPseudo k = false) :
    ∀ k ∈ (accumCands t actas cands).map (fun e => e.1), isPseudo k = false := by
  induction cands generalizing t with
  | nil => exact ht
  | cons c cs ih =>
      simp only [accumCands, List.foldl_cons] at ih ⊢
      by_cases hp : isPseudo c.name
      · rw [if_pos hp]
        exact ih t ht
      · rw [if_neg hp]
        exact ih _ (pseudo_free_addCand t c.name _ _ ht (Bool.not_eq_true _ ▸ hp))

/-- The global totals dict never holds a pseudo-candidate name. -/
theorem pseudo_free_globalTotals (snap : Snapshot) (mode : Mode) :
    ∀ k ∈ (globalTotals snap mode).map (fun e => e.1), isPseudo k = false := by
  rw [globalTotals]
  have main : ∀ (l : Snapshot) (t : Totals),
      (∀ k ∈ t.map (fun e => e.1), isPseudo k = false) →
      ∀ k ∈ (l.foldl (fun t e => if reservedKey e.1 then t else accumDept t mode e.2) t).map
          (fun e => e.1), isPseudo k = false := by
    intro l
    induction l with
    | nil => exact fun t ht => ht
    | cons e l ih =>
        intro t ht
        simp only [List.foldl_cons]
        by_cases hr : reservedKey e.1
        · rw [if_pos hr]
          exact ih t ht
        · rw [if_neg hr]
          refine ih _ ?_
          cases mode with
          | DEPARTAMENTOS => exact pseudo_free_accumCands _ _ _ ht
          | MUNICIPIOS =>
              simp only [accumDept]
              generalize e.2.municipios = ms
              induction ms generalizing t with
              | nil => exact ht
              | cons m mss ihm =>
                  simp only [List.foldl_cons]
                  exact ihm _ (pseudo_free_accumCands _ _ _ ht)
  exact main snap [] (by simp)

/-- Each department-table row is the row of some looked-up department. -/
theorem deptRow_mem (snap : Snapshot) (tops : List String) (ns : List String)
    (acc : List DeptRow) :
    ∀ row ∈ ns.foldl
        (fun acc n =>
          if reservedKey n then acc else acc ++ [deptRowFor tops n (lookupDept snap n)])
        acc,
      row ∈ acc ∨ ∃ n, row = deptRowFor tops n (lookupDept snap n) := by
  induction ns generalizing acc with
  | nil => exact fun row h => Or.inl h
  | cons n ns ih =>
      intro row h
      simp only [List.foldl_cons] at h
      split_ifs at h with hr
      · exact ih acc row h
      · rcases ih _ row h with hacc | hex
        · rcases List.mem_append.mp hacc with h1 | h1
          · exact Or.inl h1
          · exact Or.inr ⟨n, (List.mem_singleton.mp h1)⟩
        · exact Or.inr hex

/-- Each municipality-table row is the row of some looked-up last
municipality. -/
theorem munRow_mem (snap : Snapshot) (tops : List String) (ns : List String)
    (acc : List MunRow) :
    ∀ row ∈ ns.foldl
        (fun acc n =>
          if reservedKey n then acc
          else
            match (lookupDept snap n).municipios.getLast? with
            | none => acc
            | some m => acc ++ [munRowFor tops n m.1 m.2])
        acc,
      row ∈ acc ∨ ∃ (n : String) (m : String × Municipality),
        row = munRowFor tops n m.1 m.2 := by
  induction ns generalizing acc with
  | nil => exact fun row h => Or.inl h
  | cons n ns ih =>
      intro row h
      simp only [List.foldl_cons] at h
      split_ifs at h with hr
      · exact ih acc row h
      · rcases hm : (lookupDept snap n).municipios.getLast? with _ | m
        · rw [hm] at h
          exact ih acc row h
        · rw [hm] at h
          rcases ih _ row h with hacc | hex
          · rcases List.mem_append.mp hacc with h1 | h1
            · exact Or.inl h1
            · exact Or.inr ⟨n, m, List.mem_singleton.mp h1⟩
          · exact Or.inr hex

/-- Names selected as table columns are never pseudo names. -/
theorem pseudo_free_get_top (snap : Snapshot) :
    ∀ c ∈ get_top_candidates snap, isPseudo c = false := by
  induction snap with
  | nil => intro c hc; simp [get_top_candidates] at hc
  | cons e l ih =>
      intro c hc
      rw [get_top_candidates] at hc
      split_ifs at hc with h1 h2
      · exact ih c hc
      · obtain ⟨cand, hcand, hname⟩ := List.mem_map.mp hc
        have h3 : cand ∈ (filteredCands e.2.candidates).insertionSort votesDesc :=
          List.take_subset 3 _ hcand
        have h4 : cand ∈ filteredCands e.2.candidates :=
          (List.mem_insertionSort votesDesc).mp h3
        have h5 := List.of_mem_filter h4
        simp only [Bool.not_eq_true'] at h5
        exact hname ▸ h5
      · exact ih c hc

/-- C7: a pseudo-candidate row named Información Acta or Información
General — whatever its vote count — never appears as a candidate entry
of a projection summary, never is a selected table column, and never
appears in any cell of any data row or grand-total row of either
table. -/
theorem c7_pseudo_never_output (snap : Snapshot) (mode : Mode) :
    (∀ e ∈ generate_projection_summary snap mode,
      e.candidate ≠ "Información Acta" ∧ e.candidate ≠ "Información General") ∧
    (∀ c ∈ get_top_candidates snap,
      c ≠ "Información Acta" ∧ c ≠ "Información General") ∧
    (∀ r, process_department_data snap = some r →
      (∀ row ∈ r.1, ∀ cell ∈ row.cells,
        cell.1 ≠ "Información Acta" ∧ cell.1 ≠ "Información General") ∧
      (∀ cell ∈ r.2.cells,
        cell.1 ≠ "Información Acta" ∧ cell.1 ≠ "Información General")) ∧
    (∀ r, process_municipality_data snap = some r →
      (∀ row ∈ r.1, ∀ cell ∈ row.cells,
        cell.1 ≠ "Información Acta" ∧ cell.1 ≠ "Información General") ∧
      (∀ cell ∈ r.2.cells,
        cell.1 ≠ "Información Acta" ∧ cell.1 ≠ "Información General")) := by
  have notPseudo : ∀ c : String, isPseudo c = false →
      c ≠ "Información Acta" ∧ c ≠ "Información General" := by
    intro c hc
    constructor <;> intro h <;> rw [h] at hc <;> simp [isPseudo] at hc
  have htops : ∀ c ∈ get_top_candidates snap,
      c ≠ "Información Acta" ∧ c ≠ "Información General" :=
    fun c hc => notPseudo c (pseudo_free_get_top snap c hc)
  refine ⟨?_, htops, ?_, ?_⟩
  · intro e he
    have h1 : e ∈ (summaryResults snap mode).insertionSort projDesc :=
      List.take_subset 3 _ he
    have h2 : e ∈ summaryResults snap mode := (List.mem_insertionSort projDesc).mp h1
    simp only [summaryResults, List.mem_map] at h2
    obtain ⟨t, ht, he2⟩ := h2
    have : e.candidate ∈ (globalTotals snap mode).map (fun e => e.1) := by
      rw [← he2]
      exact List.mem_map_of_mem _ ht
    exact notPseudo _ (pseudo_free_globalTotals snap mode _ this)
  · intro r hr
    have hcols := deptTable_total_cols snap r hr
    rw [process_department_data] at hr
    by_cases ht : get_top_candidates snap = []
    · rw [if_pos ht] at hr
      exact absurd hr (by simp)
    · rw [if_neg ht] at hr
      have hpair := (Option.some.injEq .. ▸ hr)
      constructor
      · intro row hrow cell hcell
        have hrow1 : row ∈ (sortedKeys snap).foldl
            (fun acc n =>
              if reservedKey n then acc
              else acc ++ [deptRowFor (get_top_candidates snap) n (lookupDept snap n)])
            [] := by
          rw [show r.1 = _ from congrArg Prod.fst hpair.symm] at hrow
          exact hrow
        rcases deptRow_mem snap _ _ [] row hrow1 with h | ⟨n, hn⟩
        · simp at h
        · rw [hn, deptRowFor] at hcell
          obtain ⟨c, hc, hc2⟩ := List.mem_map.mp hcell
          have := htops c hc
          rw [← hc2]
          exact this
      · intro cell hcell
        exact htops _ (hcols ▸ List.mem_map_of_mem (fun c => c.1) hcell)
  · intro r hr
    have hcols := munTable_total_cols snap r hr
    rw [process_municipality_data] at hr
    by_cases ht : get_top_candidates snap = []
    · rw [if_pos ht] at hr
      exact absurd hr (by simp)
    · rw [if_neg ht] at hr
      by_cases hrows : ((sortedKeys snap).foldl
          (fun acc n =>
            if reservedKey n then acc
            else
              match (lookupDept snap n).municipios.getLast? with
              | none => acc
              | some m => acc ++ [munRowFor (get_top_candidates snap) n m.1 m.2])
          []) = []
      · rw [if_pos hrows] at hr
        exact absurd hr (by simp)
      · rw [if_neg hrows] at hr
        have hpair := (Option.some.injEq .. ▸ hr)
        constructor
        · intro row hrow cell hcell
          have hrow1 : row ∈ (sortedKeys snap).foldl
              (fun acc n =>
                if reservedKey n then acc
                else
                  match (lookupDept snap n).municipios.getLast? with
                  | none => acc
                  | some m => acc ++ [munRowFor (get_top_candidates snap) n m.1 m.2])
              [] := by
            rw [show r.1 = _ from congrArg Prod.fst hpair.symm] at hrow
            exact hrow
          rcases munRow_mem snap _ _ [] row hrow1 with h | ⟨n, m, hn⟩
          · simp at h
          · rw [hn, munRowFor] at hcell
            obtain ⟨c, hc, hc2⟩ := List.mem_map.mp hcell
            exact hc2 ▸ htops c hc
        · intro cell hcell
          exact htops _ (hcols ▸ List.mem_map_of_mem (fun c => c.1) hcell)

/-- Input for the C7 witness: a department whose candidates mix the
pseudo-row Información Acta at 500 votes with a real candidate. -/
def snapC7 : Snapshot :=
  [("D", ⟨some 50, [⟨"Información Acta", 500⟩, ⟨"X", 10⟩], []⟩)]

/-- Witness for C7: on snapC7 candidate X is selected and, by the
theorem, is not a pseudo name; Información Acta is not selected although
it has the most votes. -/
theorem c7_pseudo_never_output_witness :
    get_top_candidates snapC7 = ["X"] ∧ "X" ≠ "Información Acta" := by
  have he : get_top_candidates snapC7 = ["X"] := by decide
  have hm : "X" ∈ get_top_candidates snapC7 := by
    rw [he]
    exact List.mem_singleton.mpr rfl
  exact ⟨he, ((c7_pseudo_never_output snapC7 Mode.DEPARTAMENTOS).2.1 "X" hm).1⟩

/-! ### Reserved keys are opaque -/

/-- Two snapshots that differ at most in the records stored under
reserved keys: entrywise identical names, with identical records
wherever the name is not reserved. -/
def ReservedEquiv (s1 s2 : Snapshot) : Prop :=
  List.Forall₂ (fun a b => a.1 = b.1 ∧ (reservedKey a.1 = false → a.2 = b.2)) s1 s2

theorem ReservedEquiv.keys_eq {s1 s2 : Snapshot} (h : ReservedEquiv s1 s2) :
    s1.map (fun e => e.1) = s2.map (fun e => e.1) := by
  induction h with
  | nil => rfl
  | cons ha _ ih => simp [ha.1, ih]

theorem ReservedEquiv.globalTotals_eq {s1 s2 : Snapshot} (h : ReservedEquiv s1 s2)
    (mode : Mode) : globalTotals s1 mode = globalTotals s2 mode := by
  rw [globalTotals, globalTotals]
  have main : ∀ {l1 l2 : Snapshot}, ReservedEquiv l1 l2 → ∀ t : Totals,
      l1.foldl (fun t e => if reservedKey e.1 then t else accumDept t mode e.2) t =
      l2.foldl (fun t e => if reservedKey e.1 then t else accumDept t mode e.2) t := by
    intro l1 l2 h
    induction h with
    | nil => exact fun t => rfl
    | cons ha hf ih =>
        rename_i a b lx ly
        intro t
        simp only [List.foldl_cons, ← ha.1]
        by_cases hr : reservedKey a.1
        · rw [if_pos hr, if_pos hr]
          exact ih t
        · rw [if_neg hr, if_neg hr, ha.2 (Bool.not_eq_true _ ▸ hr)]
          exact ih _
  exact main h []

theorem ReservedEquiv.summary_eq {s1 s2 : Snapshot} (h : ReservedEquiv s1 s2)
    (mode : Mode) :
    generate_projection_summary s1 mode = generate_projection_summary s2 mode := by
  rw [generate_projection_summary, generate_projection_summary,
    summaryResults, summaryResults, h.globalTotals_eq mode]

theorem ReservedEquiv.quality_eq {s1 s2 : Snapshot} (h : ReservedEquiv s1 s2) :
    check_data_quality s1 = check_data_quality s2 := by
  rw [check_data_quality, check_data_quality]
  have main : ∀ {l1 l2 : Snapshot}, ReservedEquiv l1 l2 → ∀ acc : List String,
      l1.foldl qualityStep acc = l2.foldl qualityStep acc := by
    intro l1 l2 h
    induction h with
    | nil => exact fun _ => rfl
    | cons ha hf ih =>
        rename_i a b lx ly
        intro acc
        simp only [List.foldl_cons]
        have hstep : qualityStep acc a = qualityStep acc b := by
          rw [qualityStep, qualityStep, ← ha.1]
          by_cases hv : a.1 = "raw_data" ∨ a.1 = "Nacional" ∨ a.1 = "VOTO EN EL EXTERIOR"
          · rw [if_pos hv, if_pos hv]
          · rw [if_neg hv, if_neg hv]
            push_neg at hv
            have hres : reservedKey a.1 = false := by
              simp only [reservedKey, Bool.or_eq_false_iff, beq_eq_false_iff_ne]
              exact ⟨hv.1, hv.2.1⟩
            rw [ha.2 hres]
        rw [hstep]
        exact ih _
  exact main h []

theorem ReservedEquiv.lookupDept_eq {s1 s2 : Snapshot} (h : ReservedEquiv s1 s2)
    (n : String) (hn : reservedKey n = false) :
    lookupDept s1 n = lookupDept s2 n := by
  rw [lookupDept, lookupDept]
  induction h with
  | nil => rfl
  | cons ha hf ih =>
      rename_i a b lx ly
      simp only [List.find?_cons, ← ha.1]
      rcases hb : (a.1 == n) with _ | _
      · simp only [hb]
        exact ih
      · have hab : a.2 = b.2 := ha.2 (beq_iff_eq.mp hb ▸ hn)
        simp [hb, hab]

theorem ReservedEquiv.get_top_eq {s1 s2 : Snapshot} (h : ReservedEquiv s1 s2) :
    get_top_candidates s1 = get_top_candidates s2 := by
  induction h with
  | nil => rfl
  | cons ha hf ih =>
      rename_i a b lx ly
      rw [get_top_candidates, get_top_candidates, ← ha.1]
      by_cases hr : reservedKey a.1
      · rw [if_pos hr, if_pos hr]
        exact ih
      · rw [if_neg hr, if_neg hr, ← ha.2 (Bool.not_eq_true _ ▸ hr)]
        split_ifs with hc
        · rfl
        · exact ih

theorem ReservedEquiv.deptTable_eq {s1 s2 : Snapshot} (h : ReservedEquiv s1 s2) :
    process_department_data s1 = process_department_data s2 := by
  have hkeys : sortedKeys s1 = sortedKeys s2 := by
    rw [sortedKeys, sortedKeys, h.keys_eq]
  have hrows : ((sortedKeys s1).foldl
      (fun acc n =>
        if reservedKey n then acc
        else acc ++ [deptRowFor (get_top_candidates s1) n (lookupDept s1 n)]) []) =
      ((sortedKeys s2).foldl
      (fun acc n =>
        if reservedKey n then acc
        else acc ++ [deptRowFor (get_top_candidates s1) n (lookupDept s2 n)]) []) := by
    rw [← hkeys]
    apply List.foldl_ext
    intro acc n _
    by_cases hr : reservedKey n
    · rw [if_pos hr, if_pos hr]
    · rw [if_neg hr, if_neg hr, h.lookupDept_eq n (Bool.not_eq_true _ ▸ hr)]
  have htot : (fun c =>
        let t := deptTotalsFor s1 c
        (c, t.1, roundHalfEven t.2)) =
      (fun c =>
        let t := deptTotalsFor s2 c
        (c, t.1, roundHalfEven t.2)) := by
    funext c
    have hc : deptTotalsFor s1 c = deptTotalsFor s2 c := by
      rw [deptTotalsFor, deptTotalsFor, ← hkeys]
      apply List.foldl_ext
      intro acc n _
      by_cases hr : reservedKey n
      · rw [if_pos hr, if_pos hr]
      · rw [if_neg hr, if_neg hr, h.lookupDept_eq n (Bool.not_eq_true _ ▸ hr)]
    rw [hc]
  rw [process_department_data, process_department_data, ← h.get_top_eq, hrows, htot]

theorem ReservedEquiv.munTable_eq {s1 s2 : Snapshot} (h : ReservedEquiv s1 s2) :
    process_municipality_data s1 = process_municipality_data s2 := by
  rw [process_municipality_data, process_municipality_data, ← h.get_top_eq]
  have hrows : ((sortedKeys s1).foldl
      (fun acc n =>
        if reservedKey n then acc
        else
          match (lookupDept s1 n).municipios.getLast? with
          | none => acc
          | some m => acc ++ [munRowFor (get_top_candidates s1) n m.1 m.2])
      []) =
      ((sortedKeys s2).foldl
      (fun acc n =>
        if reservedKey n then acc
        else
          match (lookupDept s2 n).municipios.getLast? with
          | none => acc
          | some m => acc ++ [munRowFor (get_top_candidates s1) n m.1 m.2])
      []) := by
    rw [sortedKeys, sortedKeys, ← h.keys_eq]
    apply List.foldl_ext
    intro acc n _
    by_cases hr : reservedKey n
    · rw [if_pos hr, if_pos hr]
    · rw [if_neg hr, if_neg hr, h.lookupDept_eq n (Bool.not_eq_true _ ▸ hr)]
  have htot : (fun c =>
        let t := munTotalsFor s1 c
        (c, t.1, roundHalfEven t.2)) =
      (fun c =>
        let t := munTotalsFor s2 c
        (c, t.1, roundHalfEven t.2)) := by
    funext c
    have : munTotalsFor s1 c = munTotalsFor s2 c := by
      rw [munTotalsFor, munTotalsFor, sortedKeys, sortedKeys, ← h.keys_eq]
      apply List.foldl_ext
      intro acc n _
      by_cases hr : reservedKey n
      · rw [if_pos hr, if_pos hr]
      · rw [if_neg hr, if_neg hr, h.lookupDept_eq n (Bool.not_eq_true _ ▸ hr)]
    rw [this]
  rw [hrows, htot]

/-- C8: two snapshots that differ only in the contents of the reserved
entries raw_data and Nacional produce identical projection summaries,
identical department and municipality tables, and identical data-quality
warnings. -/
theorem c8_reserved_skipped (s1 s2 : Snapshot) (h : ReservedEquiv s1 s2) (mode : Mode) :
    generate_projection_summary s1 mode = generate_projection_summary s2 mode ∧
    process_department_data s1 = process_department_data s2 ∧
    process_municipality_data s1 = process_municipality_data s2 ∧
    check_data_quality s1 = check_data_quality s2 :=
  ⟨h.summary_eq mode, h.deptTable_eq, h.munTable_eq, h.quality_eq⟩

/-- A snapshot with populated reserved entries. -/
def snapC8a : Snapshot :=
  [("raw_data", ⟨none, [⟨"blob", 1⟩], []⟩),
   ("Nacional", ⟨some 90, [⟨"X", 999⟩], []⟩),
   ("D", ⟨some 100, [⟨"X", 10⟩], []⟩)]

/-- The same snapshot with different contents under raw_data and
Nacional only. -/
def snapC8b : Snapshot :=
  [("raw_data", ⟨some 5, [], []⟩),
   ("Nacional", ⟨some 10, [⟨"X", 123⟩, ⟨"Y", 55⟩], []⟩),
   ("D", ⟨some 100, [⟨"X", 10⟩], []⟩)]

/-- Witness for C8 at snapC8a and snapC8b. -/
theorem c8_reserved_skipped_witness :
    ReservedEquiv snapC8a snapC8b ∧
    generate_projection_summary snapC8a Mode.DEPARTAMENTOS =
      generate_projection_summary snapC8b Mode.DEPARTAMENTOS ∧
    check_data_quality snapC8a = check_data_quality snapC8b := by
  have he : ReservedEquiv snapC8a snapC8b := by
    refine List.Forall₂.cons ⟨rfl, fun hfalse => ?_⟩
      (List.Forall₂.cons ⟨rfl, fun hfalse => ?_⟩
        (List.Forall₂.cons ⟨rfl, fun _ => rfl⟩ List.Forall₂.nil))
    · exact absurd hfalse (by decide)
    · exact absurd hfalse (by decide)
  exact ⟨he, (c8_reserved_skipped _ _ he Mode.DEPARTAMENTOS).1,
    (c8_reserved_skipped _ _ he Mode.DEPARTAMENTOS).2.2.2⟩

/-! ### Missing actas_percentage: pass-through and inclusion -/

/-- A fold of pairwise additions equals the start plus the sum of the
per-element terms. -/
theorem foldl_pair_add {α : Type} (g : α → ℤ × ℚ) (l : List α) (acc : ℤ × ℚ) :
    l.foldl (fun acc x => (acc.1 + (g x).1, acc.2 + (g x).2)) acc =
      acc + (l.map g).sum := by
  induction l generalizing acc with
  | nil => simp
  | cons x l ih =>
      simp only [List.foldl_cons, List.map_cons, List.sum_cons]
      rw [ih]
      rw [show (acc.1 + (g x).1, acc.2 + (g x).2) = acc + g x by
        rw [Prod.ext_iff]
        exact ⟨by simp, by simp⟩]
      rw [add_assoc]

/-- Variant of foldl_pair_add with the two components given
separately. -/
theorem foldl_pair_add2 {α : Type} (g1 : α → ℤ) (g2 : α → ℚ) (l : List α) (acc : ℤ × ℚ) :
    l.foldl (fun acc x => (acc.1 + g1 x, acc.2 + g2 x)) acc =
      acc + (l.map (fun x => ((g1 x, g2 x) : ℤ × ℚ))).sum := by
  induction l generalizing acc with
  | nil => simp
  | cons x l ih =>
      simp only [List.foldl_cons, List.map_cons, List.sum_cons]
      rw [ih]
      rw [show ((acc.1 + g1 x, acc.2 + g2 x) : ℤ × ℚ) = acc + (g1 x, g2 x) by
        rw [Prod.ext_iff]
        exact ⟨by simp, by simp⟩]
      rw [add_assoc]

/-- One key's term in the department-table totals. -/
def deptTerm (snap : Snapshot) (c : String) (n : String) : ℤ × ℚ :=
  if reservedKey n then (0, 0)
  else
    (lookupVotes (lookupDept snap n).candidates c,
     calculate_projection (lookupVotes (lookupDept snap n).candidates c)
       ((lookupDept snap n).actas_percentage.getD 0))

/-- The department-table totals are the sum of the per-key terms. -/
theorem deptTotalsFor_eq_sum (snap : Snapshot) (c : String) :
    deptTotalsFor snap c = ((sortedKeys snap).map (deptTerm snap c)).sum := by
  rw [deptTotalsFor]
  rw [List.foldl_ext _
    (fun acc n => ((acc.1 + (deptTerm snap c n).1, acc.2 + (deptTerm snap c n).2) : ℤ × ℚ))
    (0, 0)
    (by
      intro acc n _
      simp only [deptTerm]
      by_cases hr : reservedKey n
      · rw [if_pos hr, if_pos hr]
        simp
      · rw [if_neg hr, if_neg hr])]
  rw [foldl_pair_add, Prod.mk_zero_zero, zero_add]

/-- One key's term in the municipality-table totals. -/
def munTerm (snap : Snapshot) (c : String) (n : String) : ℤ × ℚ :=
  if reservedKey n then (0, 0)
  else
    (((lookupDept snap n).municipios.map
      (fun m =>
        ((lookupVotes m.2.candidates c : ℤ),
         calculate_projection (lookupVotes m.2.candidates c)
           (m.2.actas_percentage.getD 0)))).sum)

/-- The municipality-table totals are the sum of the per-key terms. -/
theorem munTotalsFor_eq_sum (snap : Snapshot) (c : String) :
    munTotalsFor snap c = ((sortedKeys snap).map (munTerm snap c)).sum := by
  rw [munTotalsFor]
  rw [List.foldl_ext _
    (fun acc n => ((acc.1 + (munTerm snap c n).1, acc.2 + (munTerm snap c n).2) : ℤ × ℚ))
    (0, 0)
    (by
      intro acc n _
      simp only [munTerm]
      by_cases hr : reservedKey n
      · rw [if_pos hr, if_pos hr]
        simp
      · rw [if_neg hr, if_neg hr]
        rw [foldl_pair_add2]
        rw [Prod.ext_iff]
        exact ⟨by simp, by simp⟩)]
  rw [foldl_pair_add, Prod.mk_zero_zero, zero_add]

/-- Sorting the keys does not change a sum of per-key terms. -/
theorem sum_map_sortedKeys (snap : Snapshot) (g : String → ℤ × ℚ) :
    ((sortedKeys snap).map g).sum = ((snap.map (fun e => e.1)).map g).sum :=
  ((List.perm_insertionSort strLe _).map g).sum_eq

/-- Lookup is unchanged by an entry whose key differs. -/
theorem lookupDept_ins_ne (s1 s2 : Snapshot) (n : String) (d : Department)
    (k : String) (hk : k ≠ n) :
    lookupDept (s1 ++ (n, d) :: s2) k = lookupDept (s1 ++ s2) k := by
  rw [lookupDept, lookupDept, List.find?_append, List.find?_append]
  rw [List.find?_cons_of_neg _ (by simpa using fun h => hk h.symm)]

/-- Lookup of a key not bound earlier finds the inserted entry. -/
theorem lookupDept_ins_self (s1 s2 : Snapshot) (n : String) (d : Department)
    (hn1 : n ∉ s1.map (fun e => e.1)) :
    lookupDept (s1 ++ (n, d) :: s2) n = d := by
  rw [lookupDept, List.find?_append]
  have h1 : s1.find? (fun e => e.1 == n) = none := by
    rw [List.find?_eq_none]
    intro e he hbe
    exact hn1 (beq_iff_eq.mp hbe ▸ List.mem_map_of_mem (fun e => e.1) he)
  rw [h1]
  rw [List.find?_cons_of_pos _ (by simp)]
  rfl

/-- Projected contribution at completeness 0 is the raw current
contribution. -/
theorem candContribProjected_zero (k : String) (cands : List Candidate) :
    candContribProjected k 0 cands = (candContribCurrent k cands : ℚ) := by
  rw [candContribProjected, candContribCurrent]
  induction cands.filter (fun c => c.name == k) with
  | nil => simp
  | cons c cs ih =>
      simp only [List.map_cons, List.sum_cons, ih, calculate_projection, if_pos le_rfl]
      push_cast
      rw [List.map_map]
      rfl

/-- Aggregation at DEPARTAMENTOS granularity over a snapshot with one
more non-reserved department: the department's contributions add on. -/
theorem globalTotals_insert_dept (s1 s2 : Snapshot) (n : String) (d : Department)
    (k : String) (hr : reservedKey n = false) (hk : isPseudo k = false) :
    lookupTotals (globalTotals (s1 ++ (n, d) :: s2) Mode.DEPARTAMENTOS) k =
      ((lookupTotals (globalTotals (s1 ++ s2) Mode.DEPARTAMENTOS) k).1 +
        candContribCurrent k d.candidates,
       (lookupTotals (globalTotals (s1 ++ s2) Mode.DEPARTAMENTOS) k).2 +
        candContribProjected k (d.actas_percentage.getD 0) d.candidates) := by
  rw [lookupTotals_globalTotals _ _ _ hk, lookupTotals_globalTotals _ _ _ hk]
  have hleaf : leafList (s1 ++ (n, d) :: s2) Mode.DEPARTAMENTOS =
      leafList s1 Mode.DEPARTAMENTOS ++
        (d.actas_percentage.getD 0, d.candidates) :: leafList s2 Mode.DEPARTAMENTOS := by
    simp [leafList, List.filter_append, List.filter_cons, hr, deptLeaves]
  have hleaf2 : leafList (s1 ++ s2) Mode.DEPARTAMENTOS =
      leafList s1 Mode.DEPARTAMENTOS ++ leafList s2 Mode.DEPARTAMENTOS := by
    simp [leafList, List.filter_append]
  rw [hleaf, hleaf2]
  simp only [List.map_append, List.map_cons, List.sum_append, List.sum_cons, Prod.mk.injEq]
  constructor <;> ring

/-- Aggregation at MUNICIPIOS granularity over a snapshot whose
department n carries one more municipality: that municipality's
contributions add on. -/
theorem globalTotals_insert_mun (s1 s2 : Snapshot) (n nm : String) (a : Option ℚ)
    (cs : List Candidate) (t1 t2 : List (String × Municipality)) (mm : Municipality)
    (k : String) (hr : reservedKey n = false) (hk : isPseudo k = false) :
    lookupTotals (globalTotals (s1 ++ (n, ⟨a, cs, t1 ++ (nm, mm) :: t2⟩) :: s2)
        Mode.MUNICIPIOS) k =
      ((lookupTotals (globalTotals (s1 ++ (n, ⟨a, cs, t1 ++ t2⟩) :: s2)
          Mode.MUNICIPIOS) k).1 + candContribCurrent k mm.candidates,
       (lookupTotals (globalTotals (s1 ++ (n, ⟨a, cs, t1 ++ t2⟩) :: s2)
          Mode.MUNICIPIOS) k).2 +
        candContribProjected k (mm.actas_percentage.getD 0) mm.candidates) := by
  rw [lookupTotals_globalTotals _ _ _ hk, lookupTotals_globalTotals _ _ _ hk]
  have hleaf : ∀ t : List (String × Municipality),
      leafList (s1 ++ (n, ⟨a, cs, t⟩) :: s2) Mode.MUNICIPIOS =
        leafList s1 Mode.MUNICIPIOS ++
          (t.map (fun m => (m.2.actas_percentage.getD 0, m.2.candidates))) ++
            leafList s2 Mode.MUNICIPIOS := by
    intro t
    simp [leafList, List.filter_append, List.filter_cons, hr, deptLeaves]
  rw [hleaf, hleaf]
  simp only [List.map_append, List.map_cons, List.sum_append, List.sum_cons,
    Prod.mk.injEq]
  constructor <;> ring

/-- Insertion of a fresh non-reserved department adds its term to the
department-table totals. -/
theorem deptTotalsFor_insert (s1 s2 : Snapshot) (n : String) (d : Department)
    (c : String) (hr : reservedKey n = false)
    (hn1 : n ∉ s1.map (fun e => e.1)) (hn2 : n ∉ s2.map (fun e => e.1)) :
    deptTotalsFor (s1 ++ (n, d) :: s2) c =
      deptTotalsFor (s1 ++ s2) c +
        (lookupVotes d.candidates c,
         calculate_projection (lookupVotes d.candidates c)
           (d.actas_percentage.getD 0)) := by
  rw [deptTotalsFor_eq_sum, deptTotalsFor_eq_sum, sum_map_sortedKeys, sum_map_sortedKeys]
  simp only [List.map_append, List.map_cons, List.sum_append, List.sum_cons]
  have h1 : (s1.map (fun e => e.1)).map (deptTerm (s1 ++ (n, d) :: s2) c) =
      (s1.map (fun e => e.1)).map (deptTerm (s1 ++ s2) c) := by
    apply List.map_congr_left
    intro x hx
    have hxn : x ≠ n := fun h => hn1 (h ▸ hx)
    simp only [deptTerm, lookupDept_ins_ne s1 s2 n d x hxn]
  have h2 : (s2.map (fun e => e.1)).map (deptTerm (s1 ++ (n, d) :: s2) c) =
      (s2.map (fun e => e.1)).map (deptTerm (s1 ++ s2) c) := by
    apply List.map_congr_left
    intro x hx
    have hxn : x ≠ n := fun h => hn2 (h ▸ hx)
    simp only [deptTerm, lookupDept_ins_ne s1 s2 n d x hxn]
  have h3 : deptTerm (s1 ++ (n, d) :: s2) c n =
      (lookupVotes d.candidates c,
       calculate_projection (lookupVotes d.candidates c)
         (d.actas_percentage.getD 0)) := by
    rw [deptTerm, if_neg (by rw [hr] ; exact Bool.false_ne_true),
      lookupDept_ins_self s1 s2 n d hn1]
  rw [h1, h2, h3]
  abel

/-- Insertion of one more municipality into a fresh non-reserved
department adds its term to the municipality-table totals. -/
theorem munTotalsFor_insert (s1 s2 : Snapshot) (n nm : String) (a : Option ℚ)
    (cs : List Candidate) (t1 t2 : List (String × Municipality)) (mm : Municipality)
    (c : String) (hr : reservedKey n = false)
    (hn1 : n ∉ s1.map (fun e => e.1)) (hn2 : n ∉ s2.map (fun e => e.1)) :
    munTotalsFor (s1 ++ (n, ⟨a, cs, t1 ++ (nm, mm) :: t2⟩) :: s2) c =
      munTotalsFor (s1 ++ (n, ⟨a, cs, t1 ++ t2⟩) :: s2) c +
        (lookupVotes mm.candidates c,
         calculate_projection (lookupVotes mm.candidates c)
           (mm.actas_percentage.getD 0)) := by
  rw [munTotalsFor_eq_sum, munTotalsFor_eq_sum, sum_map_sortedKeys, sum_map_sortedKeys]
  simp only [List.map_append, List.map_cons, List.sum_append, List.sum_cons]
  have h1 : (s1.map (fun e => e.1)).map
        (munTerm (s1 ++ (n, ⟨a, cs, t1 ++ (nm, mm) :: t2⟩) :: s2) c) =
      (s1.map (fun e => e.1)).map (munTerm (s1 ++ (n, ⟨a, cs, t1 ++ t2⟩) :: s2) c) := by
    apply List.map_congr_left
    intro x hx
    have hxn : x ≠ n := fun h => hn1 (h ▸ hx)
    simp only [munTerm, lookupDept_ins_ne s1 s2 n _ x hxn]
  have h2 : (s2.map (fun e => e.1)).map
        (munTerm (s1 ++ (n, ⟨a, cs, t1 ++ (nm, mm) :: t2⟩) :: s2) c) =
      (s2.map (fun e => e.1)).map (munTerm (s1 ++ (n, ⟨a, cs, t1 ++ t2⟩) :: s2) c) := by
    apply List.map_congr_left
    intro x hx
    have hxn : x ≠ n := fun h => hn2 (h ▸ hx)
    simp only [munTerm, lookupDept_ins_ne s1 s2 n _ x hxn]
  have h3 : munTerm (s1 ++ (n, ⟨a, cs, t1 ++ (nm, mm) :: t2⟩) :: s2) c n =
      munTerm (s1 ++ (n, ⟨a, cs, t1 ++ t2⟩) :: s2) c n +
        (lookupVotes mm.candidates c,
         calculate_projection (lookupVotes mm.candidates c)
           (mm.actas_percentage.getD 0)) := by
    rw [munTerm, munTerm, if_neg (by rw [hr] ; exact Bool.false_ne_true),
      if_neg (by rw [hr] ; exact Bool.false_ne_true),
      lookupDept_ins_self s1 s2 n _ hn1, lookupDept_ins_self s1 s2 n _ hn1]
    simp only [List.map_append, List.map_cons, List.sum_append, List.sum_cons]
    abel
  rw [h1, h2, h3]
  abel

/-- The row fold only grows: members of the accumulator stay members. -/
theorem mem_deptRows_fold_acc (snap : Snapshot) (tops : List String) :
    ∀ (ns : List String) (acc : List DeptRow) (row : DeptRow), row ∈ acc →
      row ∈ ns.foldl
        (fun acc n =>
          if reservedKey n then acc
          else acc ++ [deptRowFor tops n (lookupDept snap n)]) acc := by
  intro ns
  induction ns with
  | nil => exact fun acc row h => h
  | cons n ns ih =>
      intro acc row h
      simp only [List.foldl_cons]
      split_ifs
      · exact ih acc row h
      · exact ih _ row (List.mem_append.mpr (Or.inl h))

/-- Every non-reserved key appearing in the iterated key list puts its
row into the department table. -/
theorem mem_deptRows_fold (snap : Snapshot) (tops : List String) :
    ∀ (ns : List String) (acc : List DeptRow) (n : String), n ∈ ns →
      reservedKey n = false →
      deptRowFor tops n (lookupDept snap n) ∈ ns.foldl
        (fun acc n =>
          if reservedKey n then acc
          else acc ++ [deptRowFor tops n (lookupDept snap n)]) acc := by
  intro ns
  induction ns with
  | nil => intro acc n h; simp at h
  | cons x ns ih =>
      intro acc n h hr
      simp only [List.foldl_cons]
      rcases List.mem_cons.mp h with h | h
      · subst h
        rw [if_neg (by rw [hr] ; exact Bool.false_ne_true)]
        exact mem_deptRows_fold_acc snap tops ns _ _ (by simp)
      · split_ifs
        · exact ih acc n h hr
        · exact ih _ n h hr

/-- C10: a leaf region whose actas_percentage field is absent is read
back as completeness 0 everywhere, so the projection of each of its vote
counts is the count itself; its contributions still enter the
aggregation totals at either granularity, its table row shows projected
equal to current in every cell, it still adds its (current, current)
term to both tables' grand totals, and the department table still
carries its row. -/
theorem c10_missing_actas (d : Department) (m : Municipality)
    (hd : d.actas_percentage = none) (hm : m.actas_percentage = none) :
    (∀ v : ℚ, calculate_projection v (d.actas_percentage.getD 0) = v) ∧
    (∀ v : ℚ, calculate_projection v (m.actas_percentage.getD 0) = v) ∧
    (∀ (s1 s2 : Snapshot) (n k : String), reservedKey n = false → isPseudo k = false →
      lookupTotals (globalTotals (s1 ++ (n, d) :: s2) Mode.DEPARTAMENTOS) k =
        ((lookupTotals (globalTotals (s1 ++ s2) Mode.DEPARTAMENTOS) k).1 +
          candContribCurrent k d.candidates,
         (lookupTotals (globalTotals (s1 ++ s2) Mode.DEPARTAMENTOS) k).2 +
          (candContribCurrent k d.candidates : ℚ))) ∧
    (∀ (s1 s2 : Snapshot) (n nm k : String) (a : Option ℚ) (cs : List Candidate)
        (t1 t2 : List (String × Municipality)),
      reservedKey n = false → isPseudo k = false →
      lookupTotals (globalTotals (s1 ++ (n, ⟨a, cs, t1 ++ (nm, m) :: t2⟩) :: s2)
          Mode.MUNICIPIOS) k =
        ((lookupTotals (globalTotals (s1 ++ (n, ⟨a, cs, t1 ++ t2⟩) :: s2)
            Mode.MUNICIPIOS) k).1 + candContribCurrent k m.candidates,
         (lookupTotals (globalTotals (s1 ++ (n, ⟨a, cs, t1 ++ t2⟩) :: s2)
            Mode.MUNICIPIOS) k).2 + (candContribCurrent k m.candidates : ℚ))) ∧
    (∀ (tops : List String) (nn : String), (deptRowFor tops nn d).cells =
      tops.map (fun c => (c, lookupVotes d.candidates c, lookupVotes d.candidates c))) ∧
    (∀ (tops : List String) (nn nm : String), (munRowFor tops nn nm m).cells =
      tops.map (fun c => (c, lookupVotes m.candidates c, lookupVotes m.candidates c))) ∧
    (∀ (s1 s2 : Snapshot) (n c : String), reservedKey n = false →
      n ∉ s1.map (fun e => e.1) → n ∉ s2.map (fun e => e.1) →
      deptTotalsFor (s1 ++ (n, d) :: s2) c =
        deptTotalsFor (s1 ++ s2) c +
          (lookupVotes d.candidates c, (lookupVotes d.candidates c : ℚ))) ∧
    (∀ (s1 s2 : Snapshot) (n nm c : String) (a : Option ℚ) (cs : List Candidate)
        (t1 t2 : List (String × Municipality)), reservedKey n = false →
      n ∉ s1.map (fun e => e.1) → n ∉ s2.map (fun e => e.1) →
      munTotalsFor (s1 ++ (n, ⟨a, cs, t1 ++ (nm, m) :: t2⟩) :: s2) c =
        munTotalsFor (s1 ++ (n, ⟨a, cs, t1 ++ t2⟩) :: s2) c +
          (lookupVotes m.candidates c, (lookupVotes m.candidates c : ℚ))) ∧
    (∀ (s1 s2 : Snapshot) (n : String) (r : List DeptRow × TotalRow),
      reservedKey n = false → n ∉ s1.map (fun e => e.1) →
      process_department_data (s1 ++ (n, d) :: s2) = some r →
      deptRowFor (get_top_candidates (s1 ++ (n, d) :: s2)) n d ∈ r.1) := by
  have hpass : ∀ v : ℚ, calculate_projection v 0 = v :=
    fun v => if_pos le_rfl
  have hd0 : d.actas_percentage.getD 0 = 0 := by rw [hd] ; rfl
  have hm0 : m.actas_percentage.getD 0 = 0 := by rw [hm] ; rfl
  refine ⟨fun v => by rw [hd0] ; exact hpass v,
    fun v => by rw [hm0] ; exact hpass v, ?_, ?_, ?_, ?_, ?_, ?_, ?_⟩
  · intro s1 s2 n k hr hk
    rw [globalTotals_insert_dept s1 s2 n d k hr hk, hd0, candContribProjected_zero]
  · intro s1 s2 n nm k a cs t1 t2 hr hk
    rw [globalTotals_insert_mun s1 s2 n nm a cs t1 t2 m k hr hk, hm0,
      candContribProjected_zero]
  · intro tops nn
    simp [deptRowFor, tableCell, hd0]
  · intro tops nn nm
    simp [munRowFor, tableCell, hm0]
  · intro s1 s2 n c hr hn1 hn2
    rw [deptTotalsFor_insert s1 s2 n d c hr hn1 hn2, hd0, hpass]
  · intro s1 s2 n nm c a cs t1 t2 hr hn1 hn2
    rw [munTotalsFor_insert s1 s2 n nm a cs t1 t2 m c hr hn1 hn2, hm0, hpass]
  · intro s1 s2 n r hr hn1 hsome
    rw [process_department_data] at hsome
    by_cases ht : get_top_candidates (s1 ++ (n, d) :: s2) = []
    · rw [if_pos ht] at hsome
      exact absurd hsome (by simp)
    · rw [if_neg ht] at hsome
      have hpair := (Option.some.injEq .. ▸ hsome)
      have hmem := mem_deptRows_fold (s1 ++ (n, d) :: s2)
        (get_top_candidates (s1 ++ (n, d) :: s2)) (sortedKeys (s1 ++ (n, d) :: s2)) [] n
        (by
          rw [sortedKeys, List.mem_insertionSort]
          simp)
        hr
      rw [lookupDept_ins_self s1 s2 n d hn1] at hmem
      rw [show r.1 = _ from congrArg Prod.fst hpair.symm]
      exact hmem

/-- Witness for C10: a department with no actas_percentage projects its
7 votes for X as exactly 7, and a one-department snapshot accumulates X
at (7, 7). -/
theorem c10_missing_actas_witness :
    calculate_projection 5
      ((⟨none, [⟨"X", 7⟩], []⟩ : Department).actas_percentage.getD 0) = 5 ∧
    lookupTotals
      (globalTotals [("D", ⟨none, [⟨"X", 7⟩], []⟩)] Mode.DEPARTAMENTOS) "X" = (7, 7) := by
  have h := c10_missing_actas ⟨none, [⟨"X", 7⟩], []⟩ ⟨none, [⟨"X", 3⟩]⟩ rfl rfl
  refine ⟨h.1 5, ?_⟩
  have h3 := h.2.2.1 [] [] "D" "X" (by rfl) (by rfl)
  rw [show (([] : Snapshot) ++ ("D", (⟨none, [⟨"X", 7⟩], []⟩ : Department)) :: []) =
    [("D", ⟨none, [⟨"X", 7⟩], []⟩)] from rfl] at h3
  rw [h3]
  simp only [globalTotals, lookupTotals, candContribCurrent, List.filter_cons,
    List.filter_nil, List.foldl_nil, List.map_cons, List.map_nil, List.sum_cons,
    List.sum_nil, String.reduceBEq, String.reduceEq, List.nil_append, Prod.mk.injEq]
  norm_num

end Elections
